import Mathlib

/-!
Verification development for the race-simulation engine of a rally racing
game.  The engine lives in the class GameEngine (src/src/app/layout.tsx):
track-curve sampling, vehicle physics with drift, track-boundary collision,
progress/checkpoint/lap detection, and the countdown/racing/finished race
state machine.

Embedding conventions:
* All JS numbers are modelled as rationals.
* Float-level geometry (the THREE.CatmullRomCurve3 spline, Math.sin, Math.cos,
  Math.sqrt inside Vector distance computations) is abstracted as an Oracle
  structure of function parameters; every theorem quantifies over the oracle,
  so the proved properties hold whatever those transcendental values are.
  Where a comparison of Euclidean distances is the only use of a square root,
  the embedding compares squared distances instead, which selects the same
  branch because the real square root is strictly monotone on nonnegatives.
* Rendering, camera, audio and particle code is presentation-layer and does
  not touch the race state; it is omitted.
-/

namespace Rally

/-- Race states of the engine, the RaceState union type of the source. -/
inductive RState where
  | countdown
  | racing
  | finished
deriving DecidableEq, Repr

/-- Events emitted through the EngineCallback record. -/
inductive Event where
  | countdownStep (step : ℕ)
  | stateChange (s : RState)
  | timerUpdate (ms : ℚ)
  | checkpointEv (index : ℕ) (elapsedMs : ℚ) (deltaMs : Option ℚ) (isBest : Bool)
  | lapComplete (lap : ℕ) (lapTimeMs : ℚ)
  | finishEv (totalMs : ℚ)
deriving DecidableEq, Repr

/-- The CheckpointSplit payload of the onCheckpoint callback. -/
structure SplitEv where
  index : ℕ
  elapsedMs : ℚ
  deltaMs : Option ℚ
  isBest : Bool
deriving DecidableEq, Repr

/-- Abstraction of the float-level geometry and math library: spline point
and tangent evaluation of the closed THREE.CatmullRomCurve3, and the
Math.sqrt / Math.sin / Math.cos functions.  All theorems hold for every
oracle (with explicitly stated analytic hypotheses where they matter). -/
structure Oracle where
  getPoint : ℚ → ℚ × ℚ
  getTangent : ℚ → ℚ × ℚ
  sqrtQ : ℚ → ℚ
  sinQ : ℚ → ℚ
  cosQ : ℚ → ℚ
  atan2Q : ℚ → ℚ → ℚ

/-- Squared Euclidean distance in the ground plane (Vector2.distanceTo is
the square root of this; comparisons of distances are comparisons of these
squares). -/
def distSq (a b : ℚ × ℚ) : ℚ :=
  (a.1 - b.1) ^ 2 + (a.2 - b.2) ^ 2

/-- THREE.MathUtils.lerp. -/
def lerpQ (x y t : ℚ) : ℚ := x + (y - x) * t

/-- THREE.MathUtils.clamp. -/
def clampQ (value lo hi : ℚ) : ℚ := max lo (min value hi)

/-! ### Checkpoint split computation (GameEngine.triggerCheckpoint) -/

/-- deltaMs of triggerCheckpoint: split minus previous best at this index,
null when no previous best exists. -/
def splitDelta (best : Option ℚ) (splitMs : ℚ) : Option ℚ :=
  match best with
  | some b => some (splitMs - b)
  | none => none

/-- isBest of triggerCheckpoint: deltaMs is null or negative. -/
def splitIsBest (best : Option ℚ) (splitMs : ℚ) : Bool :=
  match splitDelta best splitMs with
  | none => true
  | some d => decide (d < 0)

/-- The best-at-index entry after triggerCheckpoint: the source writes the
split when isBest holds and deltaMs is non-null, and also when deltaMs is
null; otherwise the stored best is kept. -/
def updatedBestSplit (best : Option ℚ) (splitMs : ℚ) : Option ℚ :=
  if splitIsBest best splitMs = true ∧ splitDelta best splitMs ≠ none then
    some splitMs
  else if splitDelta best splitMs = none then
    some splitMs
  else
    best

/-! ### Closest-point search (GameEngine.findClosestT)

The source scans i = 0 .. 240 over t = i/240, keeping the first sample of
strictly smallest distance (minDist starts at Infinity, so iteration i = 0
always installs itself; afterwards only a strictly smaller distance replaces
the incumbent).  scanMin folds that loop with the i = 0 step inlined as the
base case. -/

/-- Ascending linear scan keeping the value and first position of the
minimum of f over 0 .. n, replacing only on strict decrease exactly like
the d < minDist test of the source loop. -/
def scanMin (f : ℕ → ℚ) : ℕ → ℚ × ℕ
  | 0 => (f 0, 0)
  | n + 1 =>
    let p := scanMin f n
    if f (n + 1) < p.1 then (f (n + 1), n + 1) else p

/-- GameEngine.findClosestT: 241 uniform samples t = i/240 of the spline,
returning the parameter of the first strictly-smallest distance to the
query position.  Distances are compared through their squares (the real
square root is strictly monotone, so the selected sample is identical). -/
def findClosestT (G : Oracle) (pos2D : ℚ × ℚ) : ℚ :=
  ((scanMin (fun i => distSq pos2D (G.getPoint ((i : ℚ) / 240))) 240).2 : ℚ) / 240

/-! ### Track-boundary collision (inside GameEngine.updatePhysics) -/

/-- Result of the boundary-collision block: corrected position and the
possibly damped speed and lateral velocity. -/
structure CollisionOut where
  posX : ℚ
  posZ : ℚ
  speed : ℚ
  lateralVel : ℚ
deriving DecidableEq, Repr

/-- The boundary-collision block of GameEngine.updatePhysics.  d is the
distance from the closest spline point (the square root of
distSq pos closest, supplied by the caller).  When the car is beyond the
half width, the position is pushed back along the outward direction by
overlap + 0.1, and if the velocity component into the wall is inbound
(velocity dotted with the inward wall normal is negative) the forward
speed keeps factor 0.45 and the lateral velocity keeps factor 0.4. -/
def resolveCollision (pos closest : ℚ × ℚ) (d halfWidth : ℚ)
    (velX velZ speed lateralVel : ℚ) : CollisionOut :=
  if d > halfWidth then
    let pushX := (pos.1 - closest.1) / d
    let pushZ := (pos.2 - closest.2) / d
    let overlap := d - halfWidth
    let px := pos.1 - pushX * (overlap + 0.1)
    let pz := pos.2 - pushZ * (overlap + 0.1)
    let velDotNormal := velX * (-pushX) + velZ * (-pushZ)
    if velDotNormal < 0 then
      ⟨px, pz, speed * 0.45, lateralVel * 0.4⟩
    else
      ⟨px, pz, speed, lateralVel⟩
  else
    ⟨pos.1, pos.2, speed, lateralVel⟩

/-! ### Longitudinal dynamics (throttle / brake / reverse / rolling friction
block of GameEngine.updatePhysics) -/

/-- speedBoost of updatePhysics, derived from the car speed stat. -/
def speedBoost (carSpeed : ℚ) : ℚ := 0.9 + (carSpeed - 1) * 0.18

/-- Top speed 28 times the boost. -/
def maxSpeedOf (carSpeed : ℚ) : ℚ := 28 * speedBoost carSpeed

/-- Forward acceleration 22 times the boost. -/
def accelOf (carSpeed : ℚ) : ℚ := 22 * speedBoost carSpeed

/-- The per-tick longitudinal speed update of GameEngine.updatePhysics:
throttle is -1 when backward is held (backward wins when both are held),
else +1 when forward is held, else 0.  Forward accelerates clamped at
maxSpeed; backward brakes by 32 per second while speed exceeds 0.5, else
reverse-accelerates clamped at -0.35 maxSpeed; with no throttle, rolling
friction of 4 per second pulls toward zero and the result snaps to exactly
0 when its magnitude is below 0.1. -/
def updateSpeed (forward backward : Bool) (speed maxSpeed accel dt : ℚ) : ℚ :=
  let brakeForce : ℚ := 32
  let rollFriction : ℚ := 4
  let throttle : ℤ := if backward then -1 else if forward then 1 else 0
  if throttle > 0 then
    min (speed + accel * dt) maxSpeed
  else if throttle < 0 then
    if speed > 0.5 then speed - brakeForce * dt
    else max (speed - accel * 0.5 * dt) (-maxSpeed * 0.35)
  else
    let dir : ℚ := if speed > 0 then 1 else if speed < 0 then -1 else 0
    let s1 := speed - dir * rollFriction * dt
    if |s1| < 0.1 then 0 else s1

/-! ### The engine state (race-logic fields of GameEngine) and its
transition functions.  Checkpoints are (curve parameter, passed) pairs — the
mesh member of CheckpointState is presentation-layer.  bestTotalTime uses
none for the initial Infinity sentinel.  bestSplits is the sparse array of
per-index best splits (none where no entry has been written). -/

/-- Vehicle pose (PhysicsState of the source; the constant y = 0.5 height
is omitted). -/
structure Phys where
  posX : ℚ
  posZ : ℚ
  heading : ℚ
  velHeading : ℚ
  speed : ℚ
  lateralVel : ℚ
deriving DecidableEq, Repr

/-- Logical input state produced by the key bindings. -/
structure InputState where
  forward : Bool
  backward : Bool
  left : Bool
  right : Bool
deriving DecidableEq, Repr

/-- The race-logic state of a GameEngine instance.  The last five fields
are construction-time configuration: track width, the two car stats, and
the start pose derived from the first track point (its center and the
atan2 of its tangent). -/
structure EngineState where
  raceState : RState
  countdownStep : ℕ
  countdownTimer : ℚ
  timerActive : Bool
  startTimeMs : ℚ
  elapsedMs : ℚ
  currentLap : ℕ
  totalLaps : ℕ
  lastCarT : ℚ
  lapStartMs : ℚ
  cps : List (ℚ × Bool)
  lapCheckpointIndex : ℕ
  bestSplits : ℕ → Option ℚ
  bestTotalTime : Option ℚ
  physics : Phys
  inputSt : InputState
  trackWidth : ℚ
  carSpeed : ℚ
  carHandling : ℚ
  startX : ℚ
  startZ : ℚ
  startHeading : ℚ

/-- GameEngine.resetCheckpoints: clear every passed flag. -/
def resetCheckpoints (cps : List (ℚ × Bool)) : List (ℚ × Bool) :=
  cps.map fun cp => (cp.1, false)

/-- GameEngine.placeCarAtStart: pose to the first track point, zero speeds,
progress scalar reset to 0. -/
def placeCarAtStart (s : EngineState) : EngineState :=
  { s with
      physics := { posX := s.startX, posZ := s.startZ, heading := s.startHeading,
                   velHeading := s.startHeading, speed := 0, lateralVel := 0 }
      lastCarT := 0 }

/-- GameEngine.startCountdown: reset the run state (checkpoint passed flags
included), keep the session records, emit the initial countdown step, the
state change and a zero timer update. -/
def startCountdown (s : EngineState) : EngineState × List Event :=
  ({ s with
      raceState := RState.countdown
      countdownStep := 3
      countdownTimer := 0
      timerActive := false
      elapsedMs := 0
      currentLap := 0
      lapStartMs := 0
      lapCheckpointIndex := 0
      cps := resetCheckpoints s.cps },
   [Event.countdownStep 3, Event.stateChange RState.countdown, Event.timerUpdate 0])

/-- GameEngine.restart: clear the in-progress run (throttle inputs, pose,
timers, lap counter, checkpoint index) and start a new countdown; session
records bestTotalTime and bestSplits are untouched. -/
def restart (s : EngineState) : EngineState × List Event :=
  let s1 := { s with
      raceState := RState.countdown
      timerActive := false
      elapsedMs := 0
      currentLap := 0
      lapCheckpointIndex := 0
      inputSt := { s.inputSt with forward := false, backward := false } }
  startCountdown (placeCarAtStart s1)

/-- GameEngine.tickCountdown: accumulate dt; on crossing one second,
subtract it and decrement the step, firing GO (step 0) and entering racing
when the decremented step reaches 0, else emitting the new step. -/
def tickCountdown (dt now : ℚ) (s : EngineState) : EngineState × List Event :=
  let timer := s.countdownTimer + dt
  if timer ≥ 1 then
    let stepDec := s.countdownStep - 1
    if stepDec = 0 then
      ({ s with
          countdownTimer := timer - 1
          countdownStep := 0
          raceState := RState.racing
          timerActive := true
          startTimeMs := now
          lapStartMs := now },
       [Event.countdownStep 0, Event.stateChange RState.racing])
    else
      ({ s with countdownTimer := timer - 1, countdownStep := stepDec },
       [Event.countdownStep stepDec])
  else
    ({ s with countdownTimer := timer }, [])

/-- GameEngine.updateTimer: while the clock is active, elapsed is wall time
since the start timestamp. -/
def updateTimer (now : ℚ) (s : EngineState) : EngineState × List Event :=
  if s.timerActive then
    ({ s with elapsedMs := now - s.startTimeMs }, [Event.timerUpdate (now - s.startTimeMs)])
  else (s, [])

/-- GameEngine.finishRace: freeze the clock, zero the speeds, improve the
session best total, emit the finish event with the total elapsed time and
the state change. -/
def finishRace (s : EngineState) : EngineState × List Event :=
  let bt := match s.bestTotalTime with
    | none => some s.elapsedMs
    | some b => if s.elapsedMs < b then some s.elapsedMs else some b
  ({ s with
      raceState := RState.finished
      timerActive := false
      physics := { s.physics with speed := 0, lateralVel := 0 }
      bestTotalTime := bt },
   [Event.finishEv s.elapsedMs, Event.stateChange RState.finished])

/-- The checkpoint stage of GameEngine.checkProgress together with
triggerCheckpoint: only the checkpoint at the current lap index is
considered; it triggers when unpassed and the vehicle is within 0.9 track
widths of its curve point, marking it passed, advancing the index, updating
the best split and producing the checkpoint event payload. -/
def cpTick (G : Oracle) (trackWidth elapsedMs : ℚ) (pos : ℚ × ℚ)
    (cps : List (ℚ × Bool)) (idx : ℕ) (bests : ℕ → Option ℚ) :
    List (ℚ × Bool) × ℕ × (ℕ → Option ℚ) × Option SplitEv :=
  if h : idx < cps.length then
    let cp := cps.get ⟨idx, h⟩
    if cp.2 = false then
      let cpPos := G.getPoint cp.1
      if G.sqrtQ (distSq pos cpPos) < trackWidth * 0.9 then
        let best := bests idx
        (cps.set idx (cp.1, true), idx + 1,
         fun j => if j = idx then updatedBestSplit best elapsedMs else bests j,
         some ⟨idx, elapsedMs, splitDelta best elapsedMs, splitIsBest best elapsedMs⟩)
      else (cps, idx, bests, none)
    else (cps, idx, bests, none)
  else (cps, idx, bests, none)

/-- The finish-line edge trigger of GameEngine.checkProgress: the previous
progress scalar was above 0.88 and the current one is below 0.12. -/
def crossedFinish (lastT currentT : ℚ) : Bool :=
  decide (lastT > 0.88) && decide (currentT < 0.12)

/-- GameEngine.checkProgress: recompute the progress scalar, run the
checkpoint stage, then the lap edge trigger; on a lap the counter advances,
checkpoints reset, and when the counter reaches the configured laps the
race finishes (returning before the progress scalar is stored). -/
def checkProgress (G : Oracle) (now : ℚ) (s : EngineState) : EngineState × List Event :=
  let pos := (s.physics.posX, s.physics.posZ)
  let currentT := findClosestT G pos
  let r := cpTick G s.trackWidth s.elapsedMs pos s.cps s.lapCheckpointIndex s.bestSplits
  let s1 := { s with
      cps := r.1
      lapCheckpointIndex := r.2.1
      bestSplits := r.2.2.1 }
  let evs1 : List Event := match r.2.2.2 with
    | some ev => [Event.checkpointEv ev.index ev.elapsedMs ev.deltaMs ev.isBest]
    | none => []
  if crossedFinish s1.lastCarT currentT then
    let lapTimeMs := now - s1.lapStartMs
    let lap := s1.currentLap + 1
    let s2 := { s1 with
        currentLap := lap
        lapStartMs := now
        lapCheckpointIndex := 0
        cps := resetCheckpoints s1.cps }
    let evs2 := evs1 ++ [Event.lapComplete lap lapTimeMs]
    if lap ≥ s2.totalLaps then
      let f := finishRace s2
      (f.1, evs2 ++ f.2)
    else
      ({ s2 with lastCarT := currentT }, evs2)
  else
    ({ s1 with lastCarT := currentT }, evs1)

/-- GameEngine.updatePhysics: longitudinal dynamics, steering, the drift
model, integration of the world-space velocity, and the track-boundary
collision; the mesh/wheel/body-roll updates are presentation-layer. -/
def updatePhysics (G : Oracle) (dt : ℚ) (s : EngineState) : EngineState :=
  let boost := speedBoost s.carSpeed
  let handlingBoost := 0.7 + (s.carHandling - 1) * 0.16
  let maxSpeed := 28 * boost
  let accel := 22 * boost
  let steerMax := 2.2 * handlingBoost
  let lateralGrip := 2.5 + (s.carHandling - 1) * 0.5
  let driftAccum := 6 + (5 - s.carHandling) * 1.2
  let p := s.physics
  let speedFrac := |p.speed| / maxSpeed
  let speed1 := updateSpeed s.inputSt.forward s.inputSt.backward p.speed maxSpeed accel dt
  let steerCurve := if speedFrac > 0.05
    then steerMax * min (speedFrac * 3) 1 * (1 - speedFrac * 0.25) else 0
  let steerInput : ℚ := if s.inputSt.right then -1 else if s.inputSt.left then 1 else 0
  let steerDir : ℚ := if speed1 ≥ 0 then 1 else -1
  let heading1 := p.heading + steerInput * steerCurve * steerDir * dt
  let isBraking := s.inputSt.backward && decide (speed1 > 3)
  let brakeDriftMultiplier : ℚ := if isBraking then 3.5 else 1
  let effectiveLateralGrip := if isBraking then lateralGrip * 0.3 else lateralGrip
  let lat1 := if steerInput ≠ 0 ∧ speedFrac > 0.2
    then p.lateralVel + -steerInput * driftAccum * brakeDriftMultiplier * speedFrac * dt
    else p.lateralVel
  let lat2 := if isBraking = true ∧ steerInput ≠ 0 ∧ speedFrac > 0.3
    then lat1 + -steerInput * 4 * speedFrac * dt else lat1
  let lat3 := lerpQ lat2 0 (effectiveLateralGrip * dt)
  let maxLateral := maxSpeed * 0.75
  let lat4 := clampQ lat3 (-maxLateral) maxLateral
  let fwdX := G.sinQ heading1
  let fwdZ := G.cosQ heading1
  let rightX := G.cosQ heading1
  let rightZ := -(G.sinQ heading1)
  let velX := fwdX * speed1 + rightX * lat4
  let velZ := fwdZ * speed1 + rightZ * lat4
  let px := p.posX + velX * dt
  let pz := p.posZ + velZ * dt
  let closestT := findClosestT G (px, pz)
  let closestPt := G.getPoint closestT
  let d := G.sqrtQ (distSq (px, pz) closestPt)
  let halfWidth := s.trackWidth * 0.5
  let c := resolveCollision (px, pz) closestPt d halfWidth velX velZ speed1 lat4
  { s with
      physics := { posX := c.posX, posZ := c.posZ, heading := heading1,
                   velHeading := p.velHeading, speed := c.speed, lateralVel := c.lateralVel } }

/-- GameEngine.update: the per-tick dispatcher of the race state machine.
In countdown only the sub-counter ticks (plus camera follow, presentation);
when finished nothing but the camera runs; while racing the physics model,
the elapsed-time clock and the progress tracker run in order. -/
def update (G : Oracle) (dt now : ℚ) (s : EngineState) : EngineState × List Event :=
  match s.raceState with
  | RState.countdown => tickCountdown dt now s
  | RState.finished => (s, [])
  | RState.racing =>
    let s1 := updatePhysics G dt s
    let r1 := updateTimer now s1
    let r2 := checkProgress G now r1.1
    (r2.1, r1.2 ++ r2.2)

/-- Iterated ticks of update, collecting all emitted events. -/
def updates (G : Oracle) : List (ℚ × ℚ) → EngineState → EngineState × List Event
  | [], s => (s, [])
  | tick :: rest, s =>
    let r := update G tick.1 tick.2 s
    let r2 := updates G rest r.1
    (r2.1, r.2 ++ r2.2)

/-- A concrete oracle for closed witness instances: constant curve, identity
square root, zero sine, unit cosine. -/
def oracleId : Oracle :=
  ⟨fun _ => (0, 0), fun _ => (0, 1), fun q => q, fun _ => 0, fun _ => 1, fun _ _ => 0⟩

/-- A concrete finished-state engine used by closed witness instances. -/
def sampleState : EngineState where
  raceState := RState.finished
  countdownStep := 0
  countdownTimer := 0
  timerActive := false
  startTimeMs := 0
  elapsedMs := 42
  currentLap := 2
  totalLaps := 2
  lastCarT := 0.5
  lapStartMs := 0
  cps := [(0.25, true), (0.5, false)]
  lapCheckpointIndex := 1
  bestSplits := fun _ => none
  bestTotalTime := some 42
  physics := ⟨0, 0, 0, 0, 0, 0⟩
  inputSt := ⟨false, false, false, false⟩
  trackWidth := 12
  carSpeed := 3
  carHandling := 3
  startX := 0
  startZ := 0
  startHeading := 0

/-! ### Lap edge trigger over scripted progress traces (the lap stage of
GameEngine.checkProgress, with the per-tick progress scalar — the value
findClosestT computes from the vehicle position — supplied as the scripted
trace element). -/

/-- The lap-stage state: last stored progress scalar, lap counter,
configured total, and whether the race is still running. -/
structure LapTrack where
  lastCarT : ℚ
  currentLap : ℕ
  totalLaps : ℕ
  racing : Bool
deriving DecidableEq, Repr

/-- One racing tick of the lap stage of checkProgress; the Bool records
whether the lap-complete event fired.  When the incremented lap counter
reaches the configured total the race finishes (racing becomes false and,
as in the source which returns before storing it, the progress scalar is
not saved). -/
def lapStep (s : LapTrack) (currentT : ℚ) : LapTrack × Bool :=
  if s.racing = false then (s, false)
  else if crossedFinish s.lastCarT currentT then
    let lap := s.currentLap + 1
    if lap ≥ s.totalLaps then
      ({ s with currentLap := lap, racing := false }, true)
    else
      ({ s with currentLap := lap, lastCarT := currentT }, true)
  else
    ({ s with lastCarT := currentT }, false)

/-- Iterated lapStep over a scripted trace of progress scalars, collecting
the per-tick fired flags. -/
def lapRun : List ℚ → LapTrack → LapTrack × List Bool
  | [], s => (s, [])
  | t :: ts, s =>
    let r := lapStep s t
    let r2 := lapRun ts r.1
    (r2.1, r.2 :: r2.2)

/-! ### Checkpoint ordering within a lap (checkpoint stage of
GameEngine.checkProgress over scripted per-tick vehicle positions) -/

/-- Iterated cpTick over a scripted list of (position, elapsedMs) ticks,
threading the checkpoint flags, the next-expected index and the best
splits, and collecting every emitted checkpoint event. -/
def cpRun (G : Oracle) (tw : ℚ) :
    List ((ℚ × ℚ) × ℚ) → List (ℚ × Bool) → ℕ → (ℕ → Option ℚ) →
    List (ℚ × Bool) × ℕ × (ℕ → Option ℚ) × List SplitEv
  | [], cps, idx, bests => (cps, idx, bests, [])
  | tick :: rest, cps, idx, bests =>
    let r := cpTick G tw tick.2 tick.1 cps idx bests
    let r2 := cpRun G tw rest r.1 r.2.1 r.2.2.1
    (r2.1, r2.2.1, r2.2.2.1, r.2.2.2.toList ++ r2.2.2.2)

/-- The per-lap checkpoint invariant: the next-expected index is in range
and a checkpoint is passed exactly when its index is below it (so the
next-expected index is the lowest unpassed one). -/
def cpInv (cps : List (ℚ × Bool)) (idx : ℕ) : Prop :=
  idx ≤ cps.length ∧ ∀ j : Fin cps.length, ((cps.get j).2 = true ↔ (j : ℕ) < idx)

/-! ### Construction (GameEngine.constructor together with buildTrack,
buildCheckpoints, placeCarAtStart and the initial startCountdown).  The
constructor contains no validation at all: there is no check on the number
or degeneracy of waypoints and none on the car configuration, and no
InvalidTrackGeometry or InvalidVehicleConfig failure exists anywhere in the
source — construction always completes and enters the countdown. -/

/-- The MapConfig fields the engine reads: waypoints (consumed by the
spline construction, which the oracle abstracts), track width, lap count
and checkpoint parameters. -/
structure MapCfg where
  waypoints : List (ℚ × ℚ)
  trackWidth : ℚ
  laps : ℕ
  checkpoints : List ℚ

/-- The CarConfig stats the physics reads. -/
structure CarCfg where
  speed : ℚ
  handling : ℚ

/-- The GameEngine constructor restricted to race-logic state: initialize
the pose, build the checkpoint states from the configured parameters (all
unpassed), derive the start pose from the first sampled track point, place
the car there and start the countdown.  It is a total function: no branch
inspects the waypoint count, geometry or car stats. -/
def mkEngine (G : Oracle) (m : MapCfg) (c : CarCfg) : EngineState × List Event :=
  let startPt := G.getPoint 0
  let tangent := G.getTangent 0
  let startAngle := G.atan2Q tangent.1 tangent.2
  let s0 : EngineState :=
    { raceState := RState.countdown
      countdownStep := 3
      countdownTimer := 0
      timerActive := false
      startTimeMs := 0
      elapsedMs := 0
      currentLap := 0
      totalLaps := m.laps
      lastCarT := 0
      lapStartMs := 0
      cps := m.checkpoints.map (fun t => (t, false))
      lapCheckpointIndex := 0
      bestSplits := fun _ => none
      bestTotalTime := none
      physics := { posX := 0, posZ := 0, heading := 0, velHeading := 0,
                   speed := 0, lateralVel := 0 }
      inputSt := { forward := false, backward := false, left := false, right := false }
      trackWidth := m.trackWidth
      carSpeed := c.speed
      carHandling := c.handling
      startX := startPt.1
      startZ := startPt.2
      startHeading := startAngle }
  startCountdown (placeCarAtStart s0)

/-! ### Theorems -/

theorem distSq_nonneg (a b : ℚ × ℚ) : 0 ≤ distSq a b := by
  have h1 := sq_nonneg (a.1 - b.1)
  have h2 := sq_nonneg (a.2 - b.2)
  simpa [distSq] using add_nonneg h1 h2

/-- Claim C2: the first pass at an index emits a null delta and isBest, and
stores the split as best; a later pass emits deltaMs equal to split minus the
previous best, with isBest exactly when that delta is negative; the stored
best is replaced exactly when the split is strictly lower, hence the stored
best at an index never increases. -/
theorem checkpoint_split_semantics (best : Option ℚ) (splitMs : ℚ) :
    (best = none →
      splitDelta best splitMs = none ∧ splitIsBest best splitMs = true ∧
      updatedBestSplit best splitMs = some splitMs) ∧
    (∀ b : ℚ, best = some b →
      splitDelta best splitMs = some (splitMs - b) ∧
      (splitIsBest best splitMs = true ↔ splitMs - b < 0) ∧
      updatedBestSplit best splitMs = (if splitMs < b then some splitMs else some b)) ∧
    (∀ x b : ℚ, updatedBestSplit best splitMs = some x → best = some b → x ≤ b) := by
  refine ⟨?_, ?_, ?_⟩
  · rintro rfl
    simp [splitDelta, splitIsBest, updatedBestSplit]
  · rintro b rfl
    refine ⟨rfl, ?_, ?_⟩
    · simp only [splitIsBest, splitDelta]
      constructor
      · intro h
        exact of_decide_eq_true h
      · intro h
        exact decide_eq_true h
    · simp only [updatedBestSplit, splitIsBest, splitDelta]
      by_cases h : splitMs - b < 0
      · have hlt : splitMs < b := by linarith
        simp [h, hlt]
      · have hlt : ¬ splitMs < b := by
          intro hc; exact h (by linarith)
        simp [h, hlt]
  · intro x b hx hb
    subst hb
    simp only [updatedBestSplit, splitIsBest, splitDelta] at hx
    by_cases h : splitMs - b < 0
    · simp [h] at hx
      subst hx; linarith
    · simp [h] at hx
      subst hx; rfl

/-- Closed instance of the C2 theorem: a slower repeat pass (split 10 against
best 7) yields delta 3, not best, and keeps the stored best. -/
theorem checkpoint_split_semantics_witness :
    splitDelta (some 7) 10 = some (10 - 7) ∧
    (splitIsBest (some 7) 10 = true ↔ (10 : ℚ) - 7 < 0) ∧
    updatedBestSplit (some 7) 10 = (if (10 : ℚ) < 7 then some 10 else some 7) :=
  (checkpoint_split_semantics (some 7) 10).2.1 7 rfl

theorem scanMin_val (f : ℕ → ℚ) (n : ℕ) : (scanMin f n).1 = f (scanMin f n).2 := by
  induction n with
  | zero => rfl
  | succ n ih =>
    simp only [scanMin]
    by_cases h : f (n + 1) < (scanMin f n).1
    · simp [h]
    · simpa [h] using ih

theorem scanMin_idx_le (f : ℕ → ℚ) (n : ℕ) : (scanMin f n).2 ≤ n := by
  induction n with
  | zero => simp [scanMin]
  | succ n ih =>
    simp only [scanMin]
    by_cases h : f (n + 1) < (scanMin f n).1
    · simp [h]
    · simp only [h, if_false]
      exact ih.trans (Nat.le_succ n)

theorem scanMin_le (f : ℕ → ℚ) (n : ℕ) : ∀ i : ℕ, i ≤ n → (scanMin f n).1 ≤ f i := by
  induction n with
  | zero =>
    intro i hi
    interval_cases i
    simp [scanMin]
  | succ n ih =>
    intro i hi
    simp only [scanMin]
    by_cases h : f (n + 1) < (scanMin f n).1
    · simp only [h, if_true]
      rcases Nat.lt_or_ge i (n + 1) with hc | hc
      · exact le_of_lt (lt_of_lt_of_le h (ih i (Nat.lt_succ_iff.mp hc)))
      · have : i = n + 1 := le_antisymm hi hc
        subst this; rfl
    · simp only [h, if_false]
      rcases Nat.lt_or_ge i (n + 1) with hc | hc
      · exact ih i (Nat.lt_succ_iff.mp hc)
      · have : i = n + 1 := le_antisymm hi hc
        subst this; exact le_of_not_lt h

theorem scanMin_first (f : ℕ → ℚ) (n : ℕ) :
    ∀ i : ℕ, i < (scanMin f n).2 → (scanMin f n).1 < f i := by
  induction n with
  | zero =>
    intro i hi
    simp [scanMin] at hi
  | succ n ih =>
    intro i hi
    simp only [scanMin] at hi ⊢
    by_cases h : f (n + 1) < (scanMin f n).1
    · simp only [h, if_true] at hi ⊢
      exact lt_of_lt_of_le h (scanMin_le f n i (Nat.lt_succ_iff.mp (hi.trans_le (Nat.le_refl _))))
    · simp only [h, if_false] at hi ⊢
      exact ih i hi

/-- Claim C9: findClosestT returns the sample parameter of minimum Euclidean
distance among the 241 uniformly spaced curve samples it evaluates, ties
broken by the first occurrence in ascending t order, and — because the
closed spline evaluates identically at t = 1 and t = 0, so the final sample
never strictly beats the first — the returned progress scalar lies in
the interval from 0 inclusive to 1 exclusive. -/
theorem findClosestT_argmin (G : Oracle) (pos2D : ℚ × ℚ)
    (hclosed : G.getPoint 1 = G.getPoint 0) :
    (∃ k : ℕ, k < 240 ∧ findClosestT G pos2D = (k : ℚ) / 240) ∧
    0 ≤ findClosestT G pos2D ∧ findClosestT G pos2D < 1 ∧
    (∀ i : ℕ, i ≤ 240 →
      distSq pos2D (G.getPoint (findClosestT G pos2D)) ≤
        distSq pos2D (G.getPoint ((i : ℚ) / 240))) ∧
    (∀ i : ℕ, (i : ℚ) / 240 < findClosestT G pos2D →
      distSq pos2D (G.getPoint (findClosestT G pos2D)) <
        distSq pos2D (G.getPoint ((i : ℚ) / 240))) := by
  set f : ℕ → ℚ := fun i => distSq pos2D (G.getPoint ((i : ℚ) / 240)) with hf
  have hle := scanMin_idx_le f 240
  have hne : (scanMin f 240).2 ≠ 240 := by
    intro hidx
    have h0 : (0 : ℕ) < (scanMin f 240).2 := by omega
    have := scanMin_first f 240 0 h0
    rw [scanMin_val f 240, hidx] at this
    have hval : f 240 = f 0 := by
      simp only [hf]
      norm_num [hclosed]
    rw [hval] at this
    exact lt_irrefl _ this
  have hklt : (scanMin f 240).2 < 240 := lt_of_le_of_ne hle hne
  have hfc : findClosestT G pos2D = ((scanMin f 240).2 : ℚ) / 240 := rfl
  have hval240 : f (scanMin f 240).2 = distSq pos2D (G.getPoint (findClosestT G pos2D)) := by
    rw [hfc]
  refine ⟨⟨(scanMin f 240).2, hklt, hfc⟩, ?_, ?_, ?_, ?_⟩
  · rw [hfc]
    positivity
  · rw [hfc]
    rw [div_lt_one (by norm_num)]
    exact_mod_cast hklt
  · intro i hi
    have := scanMin_le f 240 i hi
    rw [scanMin_val f 240] at this
    rw [← hval240]
    exact this
  · intro i hi
    have hilt : i < (scanMin f 240).2 := by
      rw [hfc] at hi
      have := (div_lt_div_iff_of_pos_right (c := (240 : ℚ)) (by norm_num)).mp hi
      exact_mod_cast this
    have := scanMin_first f 240 i hilt
    rw [scanMin_val f 240] at this
    rw [← hval240]
    exact this

/-- Closed instance of the C9 theorem at a constant-curve oracle and the
query position (1, 0): the returned parameter is in range and minimal. -/
theorem findClosestT_argmin_witness :
    0 ≤ findClosestT ⟨fun _ => (0, 0), fun _ => (0, 1), id, fun _ => 0, fun _ => 1,
        fun _ _ => 0⟩ (1, 0) ∧
    findClosestT ⟨fun _ => (0, 0), fun _ => (0, 1), id, fun _ => 0, fun _ => 1,
        fun _ _ => 0⟩ (1, 0) < 1 :=
  ⟨(findClosestT_argmin _ (1, 0) rfl).2.1, (findClosestT_argmin _ (1, 0) rfl).2.2.1⟩

/-- Claim C3: with d the true distance to the closest sampled track-center
point and halfWidth at least the push-back slack 0.1, the corrected position
is within halfWidth of that sample (squared distances compared): out of
bounds the correction lands exactly at distance halfWidth minus 0.1, and in
bounds nothing moves.  Moreover whenever the pre-correction distance
exceeded halfWidth and the velocity component into the wall was inbound,
the forward speed retains factor 0.45 and the lateral velocity factor 0.4. -/
theorem collision_containment_and_damping (pos closest : ℚ × ℚ)
    (d halfWidth velX velZ speed lateralVel : ℚ)
    (hd : d * d = distSq pos closest) (hd0 : 0 ≤ d) (hw : 0.1 ≤ halfWidth) :
    (distSq ((resolveCollision pos closest d halfWidth velX velZ speed lateralVel).posX,
        (resolveCollision pos closest d halfWidth velX velZ speed lateralVel).posZ)
        closest ≤ halfWidth ^ 2) ∧
    (d > halfWidth →
      distSq ((resolveCollision pos closest d halfWidth velX velZ speed lateralVel).posX,
        (resolveCollision pos closest d halfWidth velX velZ speed lateralVel).posZ)
        closest = (halfWidth - 0.1) ^ 2) ∧
    (d > halfWidth →
      velX * (-((pos.1 - closest.1) / d)) + velZ * (-((pos.2 - closest.2) / d)) < 0 →
      (resolveCollision pos closest d halfWidth velX velZ speed lateralVel).speed
          = speed * 0.45 ∧
      (resolveCollision pos closest d halfWidth velX velZ speed lateralVel).lateralVel
          = lateralVel * 0.4) := by
  by_cases hcol : d > halfWidth
  · have hdpos : 0 < d := lt_of_le_of_lt (by linarith) hcol
    have hdne : d ≠ 0 := ne_of_gt hdpos
    have key :
        distSq ((pos.1 - (pos.1 - closest.1) / d * (d - halfWidth + 0.1)),
          (pos.2 - (pos.2 - closest.2) / d * (d - halfWidth + 0.1))) closest
          = (halfWidth - 0.1) ^ 2 := by
      have expand : (pos.1 - (pos.1 - closest.1) / d * (d - halfWidth + 0.1)) - closest.1
          = (pos.1 - closest.1) * ((halfWidth - 0.1) / d) := by
        field_simp
        ring
      have expand2 : (pos.2 - (pos.2 - closest.2) / d * (d - halfWidth + 0.1)) - closest.2
          = (pos.2 - closest.2) * ((halfWidth - 0.1) / d) := by
        field_simp
        ring
      have : distSq ((pos.1 - (pos.1 - closest.1) / d * (d - halfWidth + 0.1)),
          (pos.2 - (pos.2 - closest.2) / d * (d - halfWidth + 0.1))) closest
          = ((pos.1 - closest.1) ^ 2 + (pos.2 - closest.2) ^ 2) * ((halfWidth - 0.1) / d) ^ 2 := by
        simp only [distSq]
        rw [expand, expand2]
        ring
      rw [this]
      have hds : (pos.1 - closest.1) ^ 2 + (pos.2 - closest.2) ^ 2 = d * d := by
        rw [hd]; rfl
      rw [hds]
      field_simp
      ring
    constructor
    · have heq : distSq ((resolveCollision pos closest d halfWidth velX velZ speed
          lateralVel).posX, (resolveCollision pos closest d halfWidth velX velZ speed
          lateralVel).posZ) closest = (halfWidth - 0.1) ^ 2 := by
        simp only [resolveCollision, hcol, if_true]
        by_cases hv : velX * (-((pos.1 - closest.1) / d)) + velZ * (-((pos.2 - closest.2) / d)) < 0
        · simp only [hv, if_true]
          exact key
        · simp only [hv, if_false]
          exact key
      rw [heq]
      have h1 : (0 : ℚ) ≤ halfWidth - 0.1 := by linarith
      nlinarith [sq_nonneg halfWidth]
    constructor
    · intro _
      simp only [resolveCollision, hcol, if_true]
      by_cases hv : velX * (-((pos.1 - closest.1) / d)) + velZ * (-((pos.2 - closest.2) / d)) < 0
      · simp only [hv, if_true]
        exact key
      · simp only [hv, if_false]
        exact key
    · intro _ hv
      simp only [resolveCollision, hcol, if_true, hv, if_true]
      exact ⟨trivial, trivial⟩
  · refine ⟨?_, fun h => absurd h hcol, fun h => absurd h hcol⟩
    simp only [resolveCollision, hcol, if_false]
    have : distSq (pos.1, pos.2) closest = d * d := by
      rw [hd]
    rw [this]
    nlinarith [le_of_not_lt hcol]

/-- Closed instance of the C3 theorem: position (3, 4), closest sample at the
origin, distance 5, half width 2, inbound velocity (1, 1); the corrected
position is at squared distance 1.9 squared and the speeds are damped. -/
theorem collision_containment_and_damping_witness :
    distSq ((resolveCollision ((3 : ℚ), (4 : ℚ)) (0, 0) 5 2 1 1 10 6).posX,
      (resolveCollision ((3 : ℚ), (4 : ℚ)) (0, 0) 5 2 1 1 10 6).posZ) (0, 0)
      = ((2 : ℚ) - 0.1) ^ 2 ∧
    (resolveCollision ((3 : ℚ), (4 : ℚ)) (0, 0) 5 2 1 1 10 6).speed = 10 * 0.45 ∧
    (resolveCollision ((3 : ℚ), (4 : ℚ)) (0, 0) 5 2 1 1 10 6).lateralVel = 6 * 0.4 := by
  have h := collision_containment_and_damping ((3 : ℚ), (4 : ℚ)) (0, 0) 5 2 1 1 10 6
    (by norm_num [distSq]) (by norm_num) (by norm_num)
  exact ⟨h.2.1 (by norm_num), (h.2.2 (by norm_num) (by norm_num)).1,
    (h.2.2 (by norm_num) (by norm_num)).2⟩

/-- Claim C10: with tick delta in the clamp range and a car whose derived
top speed is at least 5, every branch of the longitudinal update keeps the
speed in the closed interval from -0.35 maxSpeed to maxSpeed.  The forward
branch is the clamped minimum against maxSpeed; the braking branch (entered
only above speed 0.5) subtracts 32 dt with no clamp at zero, so it can land
below zero, but strictly above 0.5 - 32 times 0.05, within the reverse
limit; the reverse branch is the clamped maximum against -0.35 maxSpeed;
rolling friction snaps to exactly 0 below magnitude 0.1; and collision
damping only shrinks the magnitudes of speed and lateral velocity. -/
theorem speed_interval_invariant (forward backward : Bool) (speed carSpeed dt : ℚ)
    (hdt0 : 0 ≤ dt) (hdt : dt ≤ 0.05) (hmax : 5 ≤ maxSpeedOf carSpeed)
    (hlo : -(0.35 * maxSpeedOf carSpeed) ≤ speed) (hhi : speed ≤ maxSpeedOf carSpeed) :
    (-(0.35 * maxSpeedOf carSpeed) ≤
        updateSpeed forward backward speed (maxSpeedOf carSpeed) (accelOf carSpeed) dt ∧
      updateSpeed forward backward speed (maxSpeedOf carSpeed) (accelOf carSpeed) dt ≤
        maxSpeedOf carSpeed) ∧
    (forward = true → backward = false →
      updateSpeed forward backward speed (maxSpeedOf carSpeed) (accelOf carSpeed) dt =
        min (speed + accelOf carSpeed * dt) (maxSpeedOf carSpeed)) ∧
    (backward = true → speed > 0.5 →
      updateSpeed forward backward speed (maxSpeedOf carSpeed) (accelOf carSpeed) dt =
          speed - 32 * dt ∧
        0.5 - 32 * 0.05 <
          updateSpeed forward backward speed (maxSpeedOf carSpeed) (accelOf carSpeed) dt) ∧
    (backward = true → ¬ speed > 0.5 →
      updateSpeed forward backward speed (maxSpeedOf carSpeed) (accelOf carSpeed) dt =
        max (speed - accelOf carSpeed * 0.5 * dt) (-(maxSpeedOf carSpeed) * 0.35)) ∧
    (forward = false → backward = false →
      ∀ s1 : ℚ,
        s1 = speed - (if speed > 0 then (1 : ℚ) else if speed < 0 then -1 else 0) * 4 * dt →
        |s1| < 0.1 →
        updateSpeed forward backward speed (maxSpeedOf carSpeed) (accelOf carSpeed) dt = 0) ∧
    (∀ pos closest : ℚ × ℚ, ∀ d velX velZ lat : ℚ,
      |(resolveCollision pos closest d (maxSpeedOf carSpeed) velX velZ speed lat).speed|
          ≤ |speed| ∧
      |(resolveCollision pos closest d (maxSpeedOf carSpeed) velX velZ speed lat).lateralVel|
          ≤ |lat|) := by
  have haccel : 0 ≤ accelOf carSpeed := by
    have h : accelOf carSpeed = (22 / 28) * maxSpeedOf carSpeed := by
      simp only [accelOf, maxSpeedOf]; ring
    rw [h]; nlinarith
  have hbrake : updateSpeed forward true speed (maxSpeedOf carSpeed) (accelOf carSpeed) dt
      = if speed > 0.5 then speed - 32 * dt
        else max (speed - accelOf carSpeed * 0.5 * dt) (-(maxSpeedOf carSpeed) * 0.35) := by
    simp [updateSpeed]
  have hfwd : updateSpeed true false speed (maxSpeedOf carSpeed) (accelOf carSpeed) dt
      = min (speed + accelOf carSpeed * dt) (maxSpeedOf carSpeed) := by
    simp [updateSpeed]
  have hcoast : updateSpeed false false speed (maxSpeedOf carSpeed) (accelOf carSpeed) dt
      = (if |speed - (if speed > 0 then (1 : ℚ) else if speed < 0 then -1 else 0) * 4 * dt|
            < 0.1
         then 0
         else speed - (if speed > 0 then (1 : ℚ) else if speed < 0 then -1 else 0) * 4 * dt) := by
    simp [updateSpeed]
  refine ⟨?_, ?_, ?_, ?_, ?_, ?_⟩
  · cases backward with
    | true =>
      rw [hbrake]
      split_ifs with h1
      · constructor <;> nlinarith
      · constructor
        · exact le_max_of_le_right (by nlinarith)
        · exact max_le (by nlinarith [mul_nonneg (mul_nonneg haccel (by norm_num : (0:ℚ) ≤ 0.5)) hdt0]) (by nlinarith)
    | false =>
      cases forward with
      | true =>
        rw [hfwd]
        constructor
        · exact le_min (by nlinarith [mul_nonneg haccel hdt0]) (by nlinarith)
        · exact min_le_right _ _
      | false =>
        rw [hcoast]
        split_ifs with hp hs hn <;> constructor <;> nlinarith
  · intro hf hb
    subst hf; subst hb
    exact hfwd
  · intro hb hsp
    subst hb
    rw [hbrake, if_pos hsp]
    exact ⟨rfl, by norm_num; linarith⟩
  · intro hb hnsp
    subst hb
    rw [hbrake, if_neg hnsp]
  · intro hf hb s1 hs1 habs
    subst hf; subst hb
    rw [hcoast, ← hs1, if_pos habs]
  · intro pos closest d velX velZ lat
    clear hbrake hfwd hcoast hlo hhi hmax haccel hdt hdt0
    simp only [resolveCollision]
    split_ifs with h1 h2
    · have h045 : |(0.45 : ℚ)| = 0.45 := abs_of_nonneg (by norm_num)
      have h04 : |(0.4 : ℚ)| = 0.4 := abs_of_nonneg (by norm_num)
      constructor
      · rw [abs_mul, h045]
        nlinarith [abs_nonneg speed]
      · rw [abs_mul, h04]
        nlinarith [abs_nonneg lat]
    · exact ⟨le_refl _, le_refl _⟩
    · exact ⟨le_refl _, le_refl _⟩

/-- Closed instance of the C10 theorem: braking at speed 10 with stat-1 car
(top speed 25.2) and a 0.05 tick lands at 10 - 1.6, within bounds. -/
theorem speed_interval_invariant_witness :
    updateSpeed false true 10 (maxSpeedOf 1) (accelOf 1) 0.05 = 10 - 32 * 0.05 ∧
    0.5 - 32 * 0.05 < updateSpeed false true 10 (maxSpeedOf 1) (accelOf 1) 0.05 :=
  (speed_interval_invariant false true 10 1 0.05 (by norm_num) (by norm_num)
    (by norm_num [maxSpeedOf, speedBoost]) (by norm_num [maxSpeedOf, speedBoost])
    (by norm_num [maxSpeedOf, speedBoost])).2.2.1 rfl (by norm_num)

/-- Claim C5: restart, from any race state, enters Countdown and zeroes
elapsedMs, the lap counter, the per-lap checkpoint index and every
checkpoint passed flag, while leaving the session bestTotalTime and the
per-checkpoint best splits unchanged. -/
theorem restart_resets (s : EngineState) :
    (restart s).1.raceState = RState.countdown ∧
    (restart s).1.elapsedMs = 0 ∧
    (restart s).1.currentLap = 0 ∧
    (restart s).1.lapCheckpointIndex = 0 ∧
    (restart s).1.countdownStep = 3 ∧
    ((restart s).1.cps.all fun cp => !cp.2) = true ∧
    (restart s).1.bestTotalTime = s.bestTotalTime ∧
    (restart s).1.bestSplits = s.bestSplits := by
  refine ⟨rfl, rfl, rfl, rfl, rfl, ?_, rfl, rfl⟩
  simp only [restart, startCountdown, placeCarAtStart, resetCheckpoints,
    List.all_eq_true, List.mem_map]
  rintro b ⟨cp, _, rfl⟩
  rfl

/-- Claim C6: entering Finished zeroes speed and lateral velocity, keeps
the elapsed clock value, and emits exactly one finish event (carrying the
total elapsed time) together with the state change; and from the Finished
state any sequence of further ticks leaves the whole state untouched — no
physics, progress or clock update runs — and emits no events. -/
theorem finish_freezes (G : Oracle) (s : EngineState) (ticks : List (ℚ × ℚ)) :
    ((finishRace s).1.physics.speed = 0 ∧
     (finishRace s).1.physics.lateralVel = 0 ∧
     (finishRace s).1.raceState = RState.finished ∧
     (finishRace s).1.elapsedMs = s.elapsedMs ∧
     (finishRace s).2 = [Event.finishEv s.elapsedMs, Event.stateChange RState.finished]) ∧
    (s.raceState = RState.finished → updates G ticks s = (s, [])) := by
  constructor
  · exact ⟨rfl, rfl, rfl, rfl, rfl⟩
  · intro h
    induction ticks with
    | nil => rfl
    | cons t rest ih =>
      have hu : update G t.1 t.2 s = (s, []) := by
        simp [update, h]
      simp [updates, hu, ih]

/-- Closed instance of the C6 theorem: two ticks from the concrete finished
state change nothing and emit nothing. -/
theorem finish_freezes_witness :
    updates oracleId [(0.016, 1000), (0.016, 1016)] sampleState = (sampleState, []) :=
  (finish_freezes oracleId sampleState [(0.016, 1000), (0.016, 1016)]).2 rfl

/-- Claim C7: while in Countdown, update never touches the vehicle pose;
the sub-counter crosses one-second boundaries of accumulated delta time:
below the boundary nothing is emitted and the timer grows by dt; at a
boundary with step at least 2 the decremented step is emitted and the state
stays Countdown; at a boundary with step 1 the final GO event (step 0) is
emitted and the state transitions to Racing with the clock started.  In
every case the normalized accumulated time (3 - step) + timer advances by
exactly dt and the timer stays in the unit interval, so the emissions fall
at 1-second boundaries of accumulated delta time, counting 3, 2, 1, GO. -/
theorem countdown_ticks (G : Oracle) (dt now : ℚ) (s : EngineState)
    (hs : s.raceState = RState.countdown)
    (ht0 : 0 ≤ s.countdownTimer) (ht1 : s.countdownTimer < 1)
    (hdt0 : 0 ≤ dt) (hdt1 : dt ≤ 1)
    (hstep : 1 ≤ s.countdownStep) :
    ((update G dt now s).1.physics = s.physics) ∧
    (s.countdownTimer + dt < 1 →
      update G dt now s = ({ s with countdownTimer := s.countdownTimer + dt }, [])) ∧
    (1 ≤ s.countdownTimer + dt → 2 ≤ s.countdownStep →
      update G dt now s =
        ({ s with
            countdownTimer := s.countdownTimer + dt - 1
            countdownStep := s.countdownStep - 1 },
         [Event.countdownStep (s.countdownStep - 1)])) ∧
    (1 ≤ s.countdownTimer + dt → s.countdownStep = 1 →
      (update G dt now s).1.raceState = RState.racing ∧
      (update G dt now s).1.countdownStep = 0 ∧
      (update G dt now s).1.timerActive = true ∧
      (update G dt now s).1.startTimeMs = now ∧
      (update G dt now s).1.lapStartMs = now ∧
      (update G dt now s).2 = [Event.countdownStep 0, Event.stateChange RState.racing]) ∧
    (((3 : ℚ) - ((update G dt now s).1.countdownStep : ℚ)) +
        (update G dt now s).1.countdownTimer
      = ((3 : ℚ) - (s.countdownStep : ℚ)) + s.countdownTimer + dt) ∧
    (0 ≤ (update G dt now s).1.countdownTimer ∧
      (update G dt now s).1.countdownTimer < 1) := by
  have hu : update G dt now s = tickCountdown dt now s := by
    simp [update, hs]
  rw [hu]
  by_cases hb : s.countdownTimer + dt ≥ 1
  · by_cases hsd : s.countdownStep - 1 = 0
    · have hs1 : s.countdownStep = 1 := by omega
      have ht : tickCountdown dt now s =
          ({ s with
              countdownTimer := s.countdownTimer + dt - 1
              countdownStep := 0
              raceState := RState.racing
              timerActive := true
              startTimeMs := now
              lapStartMs := now },
           [Event.countdownStep 0, Event.stateChange RState.racing]) := by
        simp [tickCountdown, hb, hsd]
      rw [ht]
      refine ⟨rfl, ?_, ?_, ?_, ?_, ?_, ?_⟩
      · intro hc; linarith
      · intro _ hc; omega
      · intro _ _; exact ⟨rfl, rfl, rfl, rfl, rfl, rfl⟩
      · show ((3 : ℚ) - ((0 : ℕ) : ℚ)) + (s.countdownTimer + dt - 1)
            = ((3 : ℚ) - (s.countdownStep : ℚ)) + s.countdownTimer + dt
        rw [hs1]
        push_cast
        ring
      · show (0 : ℚ) ≤ s.countdownTimer + dt - 1
        linarith
      · show s.countdownTimer + dt - 1 < 1
        linarith
    · have hge2 : 2 ≤ s.countdownStep := by omega
      have ht : tickCountdown dt now s =
          ({ s with
              countdownTimer := s.countdownTimer + dt - 1
              countdownStep := s.countdownStep - 1 },
           [Event.countdownStep (s.countdownStep - 1)]) := by
        simp [tickCountdown, hb, hsd]
      rw [ht]
      refine ⟨rfl, ?_, ?_, ?_, ?_, ?_, ?_⟩
      · intro hc; linarith
      · intro _ _; rfl
      · intro _ hc; omega
      · show ((3 : ℚ) - ((s.countdownStep - 1 : ℕ) : ℚ)) + (s.countdownTimer + dt - 1)
            = ((3 : ℚ) - (s.countdownStep : ℚ)) + s.countdownTimer + dt
        have hcast : ((s.countdownStep - 1 : ℕ) : ℚ) = (s.countdownStep : ℚ) - 1 := by
          have h := Nat.cast_sub (R := ℚ) hstep
          simpa using h
        rw [hcast]
        ring
      · show (0 : ℚ) ≤ s.countdownTimer + dt - 1
        linarith
      · show s.countdownTimer + dt - 1 < 1
        linarith
  · have hblt : s.countdownTimer + dt < 1 := lt_of_not_ge hb
    have ht : tickCountdown dt now s =
        ({ s with countdownTimer := s.countdownTimer + dt }, []) := by
      simp [tickCountdown, hb]
    rw [ht]
    refine ⟨rfl, ?_, ?_, ?_, ?_, ?_, ?_⟩
    · intro _; rfl
    · intro hc _; exact absurd hc hb
    · intro hc _; exact absurd hc hb
    · show ((3 : ℚ) - (s.countdownStep : ℚ)) + (s.countdownTimer + dt)
          = ((3 : ℚ) - (s.countdownStep : ℚ)) + s.countdownTimer + dt
      ring
    · show (0 : ℚ) ≤ s.countdownTimer + dt
      linarith
    · show s.countdownTimer + dt < 1
      exact hblt

/-- Closed instance of the C7 theorem: a half-second tick from the start of
the countdown leaves the pose frozen and emits nothing. -/
theorem countdown_ticks_witness :
    (update oracleId 0.5 100 (startCountdown sampleState).1).1.physics
        = (startCountdown sampleState).1.physics ∧
    update oracleId 0.5 100 (startCountdown sampleState).1 =
      ({ (startCountdown sampleState).1 with countdownTimer := 0 + 0.5 }, []) := by
  have h := countdown_ticks oracleId 0.5 100 (startCountdown sampleState).1
    rfl (by norm_num [startCountdown, sampleState]) (by norm_num [startCountdown, sampleState])
    (by norm_num) (by norm_num) (by norm_num [startCountdown, sampleState])
  exact ⟨h.1, by simpa [startCountdown, sampleState] using h.2.1 (by norm_num [startCountdown, sampleState])⟩

theorem crossedFinish_iff (a b : ℚ) :
    crossedFinish a b = true ↔ (a > 0.88 ∧ b < 0.12) := by
  simp [crossedFinish]

theorem lapStep_racing (s : LapTrack) (t : ℚ) (hr : s.racing = true)
    (hnf : s.currentLap + 1 < s.totalLaps) :
    (lapStep s t).2 = crossedFinish s.lastCarT t ∧
    (lapStep s t).1.racing = true ∧
    (lapStep s t).1.lastCarT = t ∧
    (lapStep s t).1.totalLaps = s.totalLaps ∧
    (lapStep s t).1.currentLap ≤ s.currentLap + 1 := by
  simp only [lapStep, hr]
  by_cases hc : crossedFinish s.lastCarT t = true
  · have hlt : ¬ (s.currentLap + 1 ≥ s.totalLaps) := by omega
    simp [hc, hlt]
  · simp [hc]

theorem lapRun_spec (trace : List ℚ) : ∀ s : LapTrack, s.racing = true →
    s.currentLap + trace.length < s.totalLaps →
    ∀ i : ℕ, ∀ t p : ℚ, trace.get? i = some t →
      (s.lastCarT :: trace).get? i = some p →
      ((lapRun trace s).2.get? i = some true ↔ (p > 0.88 ∧ t < 0.12)) := by
  induction trace with
  | nil =>
    intro s _ _ i t p hti _
    simp at hti
  | cons a ts ih =>
    intro s hr hl i t p hti hpi
    have hnf : s.currentLap + 1 < s.totalLaps := by
      simp only [List.length_cons] at hl
      omega
    obtain ⟨hfired, hr1, hlast, htot, hlap⟩ := lapStep_racing s a hr hnf
    cases i with
    | zero =>
      rw [List.get?_cons_zero] at hti hpi
      have hta : a = t := by injection hti
      have hpa : s.lastCarT = p := by injection hpi
      subst hta; subst hpa
      show ((lapStep s a).2 :: (lapRun ts (lapStep s a).1).2).get? 0 = some true ↔ _
      rw [List.get?_cons_zero, hfired]
      constructor
      · intro h
        have hb : crossedFinish s.lastCarT a = true := by injection h
        exact (crossedFinish_iff _ _).mp hb
      · intro h
        rw [(crossedFinish_iff _ _).mpr h]
    | succ j =>
      rw [List.get?_cons_succ] at hti hpi
      have hl1 : (lapStep s a).1.currentLap + ts.length < (lapStep s a).1.totalLaps := by
        rw [htot]
        simp only [List.length_cons] at hl
        omega
      have hshift : ((lapStep s a).1.lastCarT :: ts).get? j = (a :: ts).get? j := by
        cases j with
        | zero => simp [hlast]
        | succ k => simp
      show ((lapStep s a).2 :: (lapRun ts (lapStep s a).1).2).get? (j + 1) = some true ↔ _
      rw [List.get?_cons_succ]
      exact ih (lapStep s a).1 hr1 hl1 j t p hti (by rw [hshift]; exact hpi)

/-- Claim C1: while racing, the lap-complete event fires on a tick exactly
when the stored progress scalar of the previous tick was above 0.88 and
that of the current tick is below 0.12; a scripted trace whose progress moves from
0.95 to 0.05 in one tick fires exactly one lap event, and a trace that
oscillates near the wrap without first exceeding the high threshold fires
none. -/
theorem lap_edge_trigger (s : LapTrack) (trace : List ℚ)
    (hr : s.racing = true) (hl : s.currentLap + trace.length < s.totalLaps) :
    (∀ i : ℕ, ∀ t p : ℚ, trace.get? i = some t →
      (s.lastCarT :: trace).get? i = some p →
      ((lapRun trace s).2.get? i = some true ↔ (p > 0.88 ∧ t < 0.12))) ∧
    (lapRun [0.95, 0.05] ⟨0, 0, 5, true⟩).2.count true = 1 ∧
    (lapRun [0.05, 0.10, 0.02, 0.11, 0.01] ⟨0, 0, 5, true⟩).2.count true = 0 :=
  ⟨lapRun_spec trace s hr hl,
   by norm_num [lapRun, lapStep, crossedFinish],
   by norm_num [lapRun, lapStep, crossedFinish]⟩

/-- Closed instance of the C1 theorem: the two scripted scenarios. -/
theorem lap_edge_trigger_witness :
    (lapRun [0.95, 0.05] ⟨0, 0, 5, true⟩).2.count true = 1 ∧
    (lapRun [0.05, 0.10, 0.02, 0.11, 0.01] ⟨0, 0, 5, true⟩).2.count true = 0 :=
  (lap_edge_trigger ⟨0, 0, 5, true⟩ [0.95, 0.05] rfl (by decide)).2

theorem cpTick_cases (G : Oracle) (tw el : ℚ) (pos : ℚ × ℚ)
    (cps : List (ℚ × Bool)) (idx : ℕ) (bests : ℕ → Option ℚ) :
    (cpTick G tw el pos cps idx bests = (cps, idx, bests, none)) ∨
    (∃ h : idx < cps.length,
      (cps.get ⟨idx, h⟩).2 = false ∧
      G.sqrtQ (distSq pos (G.getPoint (cps.get ⟨idx, h⟩).1)) < tw * 0.9 ∧
      cpTick G tw el pos cps idx bests =
        (cps.set idx ((cps.get ⟨idx, h⟩).1, true), idx + 1,
         fun j => if j = idx then updatedBestSplit (bests idx) el else bests j,
         some ⟨idx, el, splitDelta (bests idx) el, splitIsBest (bests idx) el⟩)) := by
  simp only [cpTick]
  split_ifs with h hp hd
  · right
    exact ⟨h, hp, hd, rfl⟩
  · left; rfl
  · left; rfl
  · left; rfl

theorem cpTick_inv (G : Oracle) (tw el : ℚ) (pos : ℚ × ℚ)
    (cps : List (ℚ × Bool)) (idx : ℕ) (bests : ℕ → Option ℚ) (hI : cpInv cps idx) :
    cpInv (cpTick G tw el pos cps idx bests).1 (cpTick G tw el pos cps idx bests).2.1 := by
  rcases cpTick_cases G tw el pos cps idx bests with hnone | ⟨h, hp, _, hfire⟩
  · rw [hnone]
    exact hI
  · rw [hfire]
    constructor
    · simpa using h
    · intro j
      have hlen : j.val < cps.length := by simpa using j.isLt
      have hget : (cps.set idx ((cps.get ⟨idx, h⟩).1, true)).get j
          = if idx = j.val then ((cps.get ⟨idx, h⟩).1, true) else cps.get ⟨j.val, hlen⟩ := by
        simp [List.getElem_set]
      rw [hget]
      by_cases hji : idx = j.val
      · rw [if_pos hji]
        show true = true ↔ j.val < idx + 1
        constructor
        · intro _
          omega
        · intro _
          rfl
      · rw [if_neg hji]
        have := (hI.2 ⟨j.val, hlen⟩)
        simp only [this]
        omega

theorem cpRun_indices (G : Oracle) (tw : ℚ) (ticks : List ((ℚ × ℚ) × ℚ)) :
    ∀ (cps : List (ℚ × Bool)) (idx : ℕ) (bests : ℕ → Option ℚ),
      ∃ m : ℕ, m ≤ ticks.length ∧
        ((cpRun G tw ticks cps idx bests).2.2.2).map SplitEv.index = List.range' idx m := by
  induction ticks with
  | nil =>
    intro cps idx bests
    exact ⟨0, Nat.le_refl 0, by simp [cpRun]⟩
  | cons tick rest ih =>
    intro cps idx bests
    rcases cpTick_cases G tw tick.2 tick.1 cps idx bests with hnone | ⟨h, hp, hd, hfire⟩
    · obtain ⟨m, hm, hmap⟩ := ih cps idx bests
      refine ⟨m, hm.trans (Nat.le_succ rest.length), ?_⟩
      simp only [cpRun, hnone, Option.toList_none, List.nil_append]
      exact hmap
    · obtain ⟨m, hm, hmap⟩ := ih (cps.set idx ((cps.get ⟨idx, h⟩).1, true)) (idx + 1)
        (fun j => if j = idx then updatedBestSplit (bests idx) tick.2 else bests j)
      refine ⟨m + 1, Nat.succ_le_succ hm, ?_⟩
      simp only [cpRun, hfire, Option.toList_some, List.cons_append, List.nil_append,
        List.map_cons, hmap]
      rw [List.range'_succ idx m 1]

/-- Claim C4: within a lap (between checkpoint resets), the checkpoint
events fired over any scripted tick sequence carry consecutive indices
from the starting next-expected index — in particular starting at 0 at a
fresh lap — so they are strictly increasing with no repeats and at most
one fires per tick; and a fired event always comes from the current
next-expected checkpoint, which under the lap invariant is the
lowest-index unpassed one, and only when the vehicle distance to its curve
point falls below 0.9 of the track width. -/
theorem checkpoint_order (G : Oracle) (tw : ℚ) (ticks : List ((ℚ × ℚ) × ℚ))
    (cps : List (ℚ × Bool)) (bests : ℕ → Option ℚ) :
    (∃ m : ℕ, m ≤ ticks.length ∧
      ((cpRun G tw ticks cps 0 bests).2.2.2).map SplitEv.index = List.range' 0 m ∧
      (((cpRun G tw ticks cps 0 bests).2.2.2).map SplitEv.index).Pairwise (· < ·) ∧
      (((cpRun G tw ticks cps 0 bests).2.2.2).map SplitEv.index).Nodup) ∧
    (∀ (el : ℚ) (pos : ℚ × ℚ) (idx : ℕ) (b2 : ℕ → Option ℚ),
      ((cpTick G tw el pos cps idx b2).2.2.2).toList.length ≤ 1) ∧
    (∀ (el : ℚ) (pos : ℚ × ℚ) (idx : ℕ) (b2 : ℕ → Option ℚ), cpInv cps idx →
      ∀ ev : SplitEv, (cpTick G tw el pos cps idx b2).2.2.2 = some ev →
        ev.index = idx ∧ ev.elapsedMs = el ∧
        (cpTick G tw el pos cps idx b2).2.1 = idx + 1 ∧
        ∃ h : idx < cps.length, (cps.get ⟨idx, h⟩).2 = false ∧
          (∀ j : Fin cps.length, (j : ℕ) < idx → (cps.get j).2 = true) ∧
          G.sqrtQ (distSq pos (G.getPoint (cps.get ⟨idx, h⟩).1)) < tw * 0.9) := by
  refine ⟨?_, ?_, ?_⟩
  · obtain ⟨m, hm, hmap⟩ := cpRun_indices G tw ticks cps 0 bests
    refine ⟨m, hm, hmap, ?_, ?_⟩
    · rw [hmap]
      exact List.pairwise_lt_range' 0 m
    · rw [hmap]
      exact (List.pairwise_lt_range' 0 m).imp ne_of_lt
  · intro el pos idx b2
    rcases cpTick_cases G tw el pos cps idx b2 with hnone | ⟨h, hp, hd, hfire⟩
    · rw [hnone]
      simp
    · rw [hfire]
      simp
  · intro el pos idx b2 hI ev hev
    rcases cpTick_cases G tw el pos cps idx b2 with hnone | ⟨h, hp, hd, hfire⟩
    · rw [hnone] at hev
      exact absurd hev (by simp)
    · rw [hfire] at hev
      have hev2 : ev = ⟨idx, el, splitDelta (b2 idx) el, splitIsBest (b2 idx) el⟩ := by
        injection hev with h1
        exact h1.symm
      subst hev2
      refine ⟨rfl, rfl, by rw [hfire], h, hp, ?_, hd⟩
      intro j hj
      exact (hI.2 j).mpr hj

/-- Closed instance of the C4 theorem: with one checkpoint and one scripted
tick, at most one checkpoint event is emitted. -/
theorem checkpoint_order_witness :
    ((cpTick oracleId 12 5 (0, 0) [(0.5, false)] 0 (fun _ => none)).2.2.2).toList.length ≤ 1 :=
  (checkpoint_order oracleId 12 [((0, 0), 5)] [(0.5, false)] (fun _ => none)).2.1
    5 (0, 0) 0 (fun _ => none)

/-- Counterexample to claim C8: constructing with only 2 (degenerate)
waypoints and a car whose derived top speed is exactly 0 raises nothing —
the engine is built, enters Countdown and emits the normal construction
events, where the claim demands failure with InvalidTrackGeometry and
InvalidVehicleConfig at construction time. -/
theorem construction_no_validation_counterexample :
    (mkEngine oracleId ⟨[(0, 0), (1, 1)], 10, 1, [0.5]⟩ ⟨-4, 3⟩).1.raceState
        = RState.countdown ∧
    (mkEngine oracleId ⟨[(0, 0), (1, 1)], 10, 1, [0.5]⟩ ⟨-4, 3⟩).2
        = [Event.countdownStep 3, Event.stateChange RState.countdown, Event.timerUpdate 0] ∧
    maxSpeedOf (-4) = 0 :=
  ⟨rfl, rfl, by norm_num [maxSpeedOf, speedBoost]⟩

/-- Amended claim C8: construction performs no validation and never fails —
for every oracle, map configuration (any number of waypoints, however
degenerate) and car configuration (zero top speed included), the engine is
built, enters Countdown with the configured lap count, all checkpoints
unpassed, and emits the normal construction events. -/
theorem construction_always_succeeds (G : Oracle) (m : MapCfg) (c : CarCfg) :
    (mkEngine G m c).1.raceState = RState.countdown ∧
    (mkEngine G m c).2 =
      [Event.countdownStep 3, Event.stateChange RState.countdown, Event.timerUpdate 0] ∧
    (mkEngine G m c).1.totalLaps = m.laps ∧
    ((mkEngine G m c).1.cps.all fun cp => !cp.2) = true := by
  refine ⟨rfl, rfl, rfl, ?_⟩
  simp only [mkEngine, startCountdown, placeCarAtStart, resetCheckpoints,
    List.all_eq_true, List.mem_map, List.map_map]
  rintro b ⟨t, _, rfl⟩
  rfl

end Rally
